import Mathlib

/-!
# Shallow embedding of the sqlitestore session store

This file embeds the Go package `sqlitestore` (a Gorilla-sessions backend
storing sessions in a sqlite table) and proves the specified properties of
its session lifecycle engine.

Modelling conventions:
* `time.Time` instants are integers (seconds); `t1.Sub t2 < 0` becomes
  `t1 - t2 < 0` and `time.Until t` becomes `t - now`.
* The securecookie codec is opaque and lossless: the encoded session-data
  blob is represented by the value map that was passed to the encoder, and
  the encoded cookie value by the session identifier it wraps.  Encode /
  decode / statement-execution failures are modelled by boolean flags in an
  environment record `Env`, one per external call site.
* The sqlite table is a list of `sessionRow`; the four prepared statements
  become pure functions on that list.  `INTEGER PRIMARY KEY` assignment for
  a `NULL` id inserts `max id + 1`.
* Go's in-place mutation of `session` is modelled by returning the updated
  session alongside the database state and the error, so that mutations
  that happen before a failure are still visible (as they are in Go).
-/

namespace Sqlitestore

/-- A value stored in a session's `Values` map: either a `time.Time`
(needed for the reserved timestamp keys) or some other opaque payload. -/
inductive GoValue where
  | vtime (t : Int)
  | vother (payload : String)
deriving DecidableEq

/-- The session value map `map[interface{}]interface{}`, restricted to the
string keys the store manipulates; modelled as an association list. -/
abbrev SessValues := List (String × GoValue)

/-- Map lookup: `session.Values[k]` (`none` plays the role of Go's `nil`). -/
def lookupV : SessValues → String → Option GoValue
  | [], _ => none
  | (k', v) :: rest, k => if k' = k then some v else lookupV rest k

/-- Map deletion: `delete(session.Values, k)`. -/
def eraseV (vs : SessValues) (k : String) : SessValues :=
  vs.filter (fun p => p.1 != k)

/-- Map assignment: `session.Values[k] = v`. -/
def setV (vs : SessValues) (k : String) (v : GoValue) : SessValues :=
  (k, v) :: eraseV vs k

/-- The type assertion `v.(time.Time)`: the store only ever applies it to
values that are times; a non-time value would panic in Go. -/
def asTime : GoValue → Int
  | .vtime t => t
  | .vother _ => 0

/-- Embeds `sessions.Options` (the fields the store uses). -/
structure Options where
  path : String
  maxAge : Int
deriving DecidableEq

/-- Embeds `sessions.Session` (the fields the store uses). -/
structure Session where
  id : String
  name : String
  values : SessValues
  isNew : Bool
  options : Options
deriving DecidableEq

/-- The `Store` configuration relevant to the lifecycle logic (statements
and codecs are opaque; see `Env`). -/
structure Store where
  options : Options
deriving DecidableEq

/-- One row of the `sessions` table.  `data` is the decoded form of the
`session_data` blob (the codec is an opaque bijection). -/
structure sessionRow where
  id : Nat
  data : SessValues
  createdOn : Int
  modifiedOn : Int
  expiresOn : Int
deriving DecidableEq

/-- The `sessions` table. -/
abbrev DBState := List sessionRow

/-- Row id assigned by sqlite for an `INTEGER PRIMARY KEY` inserted as
`NULL`: one more than the largest existing id. -/
def nextId (db : DBState) : Nat :=
  (db.map (fun r => r.id)).foldr max 0 + 1

/-- Statement `SELECT ... WHERE id = ?` (the string parameter is coerced to the
integer key, i.e. compared against the decimal rendering of the id). -/
def findRow (db : DBState) (id : String) : Option sessionRow :=
  db.find? (fun r => toString r.id == id)

/-- Statement `DELETE FROM sessions WHERE id = ?`. -/
def deleteRow (db : DBState) (id : String) : DBState :=
  db.filter (fun r => toString r.id != id)

/-- Statement `UPDATE sessions SET session_data = ?, created_on = ?, expires_on = ?
WHERE id = ?` — note that `modified_on` is not in the SET list. -/
def updateRow (db : DBState) (id : String) (data : SessValues)
    (createdOn expiresOn : Int) : DBState :=
  db.map (fun r =>
    if toString r.id == id then
      { r with data := data, createdOn := createdOn, expiresOn := expiresOn }
    else r)

/-- Outcome environment for one store call: the current time and the
success/failure of each fallible external call. -/
structure Env where
  now : Int
  encodeBlobOk : Bool
  encodeIDOk : Bool
  decodeBlobOk : Bool
  scanOk : Bool
  execOk : Bool
  lastInsertOk : Bool
deriving DecidableEq

/-- The errors the store can return (plus `sql.ErrNoRows` from `Scan`). -/
inductive GoError where
  | encodeBlobError
  | encodeIDError
  | execError
  | lastInsertError
  | noRows
  | scanError
  | sessionExpired
  | decodeError
deriving DecidableEq

/-- Embedding of `(*Store).insert`: compute `created_on` (caller override
or now), `modified_on := created_on`, `expires_on` (caller override or
now+max-age, no clamping), strip the three reserved keys, encode, execute
the insert, and write the assigned row id back onto the session.  Returns
(table, session, error). -/
def insert (m : Store) (env : Env) (db : DBState) (session : Session) :
    DBState × Session × Option GoError :=
  let createdOn : Int :=
    match lookupV session.values "created_on" with
    | none => env.now
    | some v => asTime v
  let modifiedOn : Int := createdOn
  let expiresOn : Int :=
    match lookupV session.values "expires_on" with
    | none => env.now + session.options.maxAge
    | some v => asTime v
  let values :=
    eraseV (eraseV (eraseV session.values "created_on") "expires_on") "modified_on"
  let session := { session with values := values }
  if env.encodeBlobOk = false then (db, session, some GoError.encodeBlobError)
  else if env.execOk = false then (db, session, some GoError.execError)
  else
    let row : sessionRow :=
      { id := nextId db, data := values, createdOn := createdOn,
        modifiedOn := modifiedOn, expiresOn := expiresOn }
    let db := db ++ [row]
    if env.lastInsertOk = false then (db, session, some GoError.lastInsertError)
    else (db, { session with id := toString row.id }, none)

/-- Embedding of `(*Store).save` (the unexported update path): a still-new
session is inserted; otherwise `expires_on` is the caller override clamped
up to at least now+max-age, the reserved keys are stripped, and the row is
updated in place.  Returns (table, session, error). -/
def save (m : Store) (env : Env) (db : DBState) (session : Session) :
    DBState × Session × Option GoError :=
  if session.isNew then insert m env db session
  else
    let createdOn : Int :=
      match lookupV session.values "created_on" with
      | none => env.now
      | some v => asTime v
    let expiresOn : Int :=
      match lookupV session.values "expires_on" with
      | none => env.now + session.options.maxAge
      | some v =>
        if asTime v - (env.now + session.options.maxAge) < 0 then
          env.now + session.options.maxAge
        else asTime v
    let values :=
      eraseV (eraseV (eraseV session.values "created_on") "expires_on") "modified_on"
    let session := { session with values := values }
    if env.encodeBlobOk = false then (db, session, some GoError.encodeBlobError)
    else if env.execOk = false then (db, session, some GoError.execError)
    else (updateRow db session.id values createdOn expiresOn, session, none)

/-- A `Set-Cookie` header written by the store (`sessions.NewCookie`):
name, value (the encoded identifier, or empty), path, and max-age. -/
structure CookieOut where
  name : String
  value : String
  path : String
  maxAge : Int
deriving DecidableEq

/-- The observable outcome of `Save` / `Delete`: the table, the (possibly
mutated) session, the cookies written onto the response, and the error. -/
structure SaveOut where
  db : DBState
  session : Session
  cookies : List CookieOut
  err : Option GoError
deriving DecidableEq

/-- Embedding of `(*Store).Delete`: write an immediately-expiring cookie
(max-age −1, empty value), clear every key of the value map, then execute
the delete statement keyed by the session id. -/
def Delete (m : Store) (env : Env) (db : DBState) (session : Session) : SaveOut :=
  let cookie : CookieOut :=
    { name := session.name, value := "", path := session.options.path, maxAge := -1 }
  let session := { session with values := [] }
  if env.execOk = false then
    { db := db, session := session, cookies := [cookie], err := some GoError.execError }
  else
    { db := deleteRow db session.id, session := session,
      cookies := [cookie], err := none }

/-- Embedding of `(*Store).Save`: a non-positive max-age is redirected to
`Delete`; otherwise an empty id inserts and a non-empty id updates, and on
success the id is encoded into a cookie written onto the response. -/
def Save (m : Store) (env : Env) (db : DBState) (session : Session) : SaveOut :=
  if session.options.maxAge ≤ 0 then Delete m env db session
  else
    let step :=
      if session.id = "" then insert m env db session
      else save m env db session
    match step with
    | (db', session', some e) =>
      { db := db', session := session', cookies := [], err := some e }
    | (db', session', none) =>
      if env.encodeIDOk = false then
        { db := db', session := session', cookies := [],
          err := some GoError.encodeIDError }
      else
        { db := db', session := session',
          cookies := [{ name := session'.name, value := session'.id,
                        path := session'.options.path,
                        maxAge := session'.options.maxAge }],
          err := none }

/-- Embedding of `(*Store).load`: select the row by id, fail if the scan
fails (`sql.ErrNoRows` when no row matches), fail with the distinguished
`SessionExpired` error when `time.Until(expires_on) < 0`, decode the blob
into the value map, and re-inject the three timestamps. -/
def load (m : Store) (env : Env) (db : DBState) (session : Session) :
    Session × Option GoError :=
  match findRow db session.id with
  | none => (session, some GoError.noRows)
  | some row =>
    if env.scanOk = false then (session, some GoError.scanError)
    else if row.expiresOn - env.now < 0 then (session, some GoError.sessionExpired)
    else if env.decodeBlobOk = false then (session, some GoError.decodeError)
    else
      let values := row.data
      let values := setV values "created_on" (GoValue.vtime row.createdOn)
      let values := setV values "modified_on" (GoValue.vtime row.modifiedOn)
      let values := setV values "expires_on" (GoValue.vtime row.expiresOn)
      ({ session with values := values }, none)

/-- Embeds `sessions.NewSession` followed by the option copy done in `New`. -/
def NewSession (m : Store) (name : String) : Session :=
  { id := "", name := name, values := [], isNew := true,
    options := { path := m.options.path, maxAge := m.options.maxAge } }

/-- What the inbound request carries for the named cookie: no cookie at
all, or a cookie whose securecookie decoding fails (`none`) or yields an
identifier (`some id`). -/
inductive CookieRead where
  | absent
  | present (decoded : Option String)
deriving DecidableEq

/-- Embedding of `(*Store).New`: build a fresh is-new session; when a
cookie is present, decode it into the id and try to load; a successful
load clears the is-new flag, a failed load is swallowed (`err = nil`),
while a decode failure leaves `err` set and is returned. -/
def New (m : Store) (env : Env) (db : DBState) (cr : CookieRead) (name : String) :
    Session × Option GoError :=
  let session := NewSession m name
  match cr with
  | .absent => (session, none)
  | .present none => (session, some GoError.decodeError)
  | .present (some id) =>
    let session := { session with id := id }
    match load m env db session with
    | (session', none) => ({ session' with isNew := false }, none)
    | (session', some _) => (session', none)

/-- The three reserved timestamp keys are absent from a value map. -/
def noReservedKeys (vs : SessValues) : Prop :=
  lookupV vs "created_on" = none ∧ lookupV vs "modified_on" = none ∧
    lookupV vs "expires_on" = none

instance (vs : SessValues) : Decidable (noReservedKeys vs) :=
  decidable_of_iff
    (lookupV vs "created_on" = none ∧ lookupV vs "modified_on" = none ∧
      lookupV vs "expires_on" = none) Iff.rfl

/-- Boolean form of `noReservedKeys`, for quantifier-free statements. -/
def noReservedB (vs : SessValues) : Bool :=
  (lookupV vs "created_on").isNone && (lookupV vs "modified_on").isNone &&
    (lookupV vs "expires_on").isNone

/-! ## Concrete fixtures used by witnesses and counterexamples -/

/-- The options `NewStore` installs by default: path `/`, 14 days. -/
def defaultOptions : Options := { path := "/", maxAge := 60 * 60 * 24 * 14 }

def store0 : Store := { options := defaultOptions }

/-- An environment where every external call succeeds, at time 100. -/
def envOk : Env :=
  { now := 100, encodeBlobOk := true, encodeIDOk := true, decodeBlobOk := true,
    scanOk := true, execOk := true, lastInsertOk := true }

/-! ## Helper lemmas about the value-map operations -/

theorem lookupV_eraseV_self (vs : SessValues) (k : String) :
    lookupV (eraseV vs k) k = none := by
  induction vs with
  | nil => rfl
  | cons p rest ih =>
    simp only [eraseV, List.filter_cons] at ih ⊢
    by_cases h : p.1 = k
    · simp [h, ih]
    · simp [h, lookupV, ih]

theorem lookupV_eraseV_ne (vs : SessValues) (k k' : String) (h : k ≠ k') :
    lookupV (eraseV vs k') k = lookupV vs k := by
  induction vs with
  | nil => rfl
  | cons p rest ih =>
    simp only [eraseV, List.filter_cons] at ih ⊢
    by_cases hp : p.1 = k'
    · simp [hp, ih, lookupV, Ne.symm h]
    · simp [hp, lookupV, ih]

theorem lookupV_setV_self (vs : SessValues) (k : String) (v : GoValue) :
    lookupV (setV vs k v) k = some v := by
  simp [setV, lookupV]

theorem lookupV_setV_ne (vs : SessValues) (k k' : String) (v : GoValue) (h : k ≠ k') :
    lookupV (setV vs k' v) k = lookupV vs k := by
  simp [setV, lookupV, Ne.symm h, lookupV_eraseV_ne vs k k' h]

/-- Stripping the three reserved keys really removes them. -/
theorem noReservedKeys_strip (vs : SessValues) :
    noReservedKeys
      (eraseV (eraseV (eraseV vs "created_on") "expires_on") "modified_on") := by
  refine ⟨?_, ?_, ?_⟩
  · rw [lookupV_eraseV_ne _ _ _ (by decide), lookupV_eraseV_ne _ _ _ (by decide),
      lookupV_eraseV_self]
  · exact lookupV_eraseV_self _ _
  · rw [lookupV_eraseV_ne _ _ _ (by decide), lookupV_eraseV_self]

theorem noReservedB_eq_true_iff (vs : SessValues) :
    noReservedB vs = true ↔ noReservedKeys vs := by
  simp [noReservedB, noReservedKeys, Option.isNone_iff_eq_none, and_assoc]

theorem noReservedB_strip (vs : SessValues) :
    noReservedB
      (eraseV (eraseV (eraseV vs "created_on") "expires_on") "modified_on") = true :=
  (noReservedB_eq_true_iff _).mpr (noReservedKeys_strip vs)

/-! ## Helper lemmas about the table operations -/

theorem findRow_deleteRow (db : DBState) (id : String) :
    findRow (deleteRow db id) id = none := by
  simp only [findRow, deleteRow, List.find?_eq_none, List.mem_filter]
  intro r hr
  simpa using hr.2

theorem updateRow_map_modifiedOn (db : DBState) (id : String) (d : SessValues)
    (c e : Int) :
    (updateRow db id d c e).map (fun r => r.modifiedOn) =
      db.map (fun r => r.modifiedOn) := by
  induction db with
  | nil => rfl
  | cons r rest ih =>
    simp only [updateRow, List.map_cons] at ih ⊢
    rw [ih]
    by_cases h : toString r.id == id <;> simp [h]

/-- Helper: `Nat.toDigitsCore` never shrinks a non-empty accumulator to nothing. -/
theorem toDigitsCore_cons_ne_nil (b : Nat) :
    ∀ (f n : Nat) (c : Char) (cs : List Char),
      Nat.toDigitsCore b f n (c :: cs) ≠ [] := by
  intro f
  induction f with
  | zero => intro n c cs; simp [Nat.toDigitsCore]
  | succ f ih =>
    intro n c cs
    simp only [Nat.toDigitsCore]
    split
    · simp
    · exact ih (n / b) _ _

theorem toDigits_ne_nil (b n : Nat) : Nat.toDigits b n ≠ [] := by
  unfold Nat.toDigits
  simp only [Nat.toDigitsCore]
  split
  · simp
  · exact toDigitsCore_cons_ne_nil b n (n / b) _ _

/-- The decimal rendering of a natural number is never the empty string. -/
theorem toString_nat_ne_empty (n : Nat) : toString n ≠ "" := by
  show Nat.repr n ≠ ""
  unfold Nat.repr
  intro h
  have hlen := congrArg String.length h
  rw [List.length_asString] at hlen
  exact toDigits_ne_nil 10 n (List.length_eq_zero.mp hlen)

/-- Helper: `load` never changes the is-new flag. -/
theorem load_isNew (m : Store) (env : Env) (db : DBState) (s : Session) :
    (load m env db s).1.isNew = s.isNew := by
  unfold load
  cases findRow db s.id with
  | none => rfl
  | some row =>
    simp only
    split
    · rfl
    · split
      · rfl
      · split <;> rfl

/-! ## Characterizations of the write paths -/

/-- The value map with the three reserved keys deleted, as done by both
`insert` and `save` just before encoding. -/
def strippedValues (vs : SessValues) : SessValues :=
  eraseV (eraseV (eraseV vs "created_on") "expires_on") "modified_on"

/-- The caller-override-or-fallback rule `insert` uses for both
timestamps. -/
def overrideOr (vs : SessValues) (k : String) (fallback : Int) : Int :=
  match lookupV vs k with
  | none => fallback
  | some v => asTime v

/-- The renewal rule of the update path: caller override clamped up to at
least now + max-age. -/
def clampedExpiry (env : Env) (s : Session) : Int :=
  match lookupV s.values "expires_on" with
  | none => env.now + s.options.maxAge
  | some v =>
    if asTime v - (env.now + s.options.maxAge) < 0 then
      env.now + s.options.maxAge
    else asTime v

theorem insert_success (m : Store) (env : Env) (db : DBState) (s : Session)
    (henc : env.encodeBlobOk = true) (hexec : env.execOk = true)
    (hlast : env.lastInsertOk = true) :
    insert m env db s =
      (db ++ [{ id := nextId db, data := strippedValues s.values,
                createdOn := overrideOr s.values "created_on" env.now,
                modifiedOn := overrideOr s.values "created_on" env.now,
                expiresOn :=
                  overrideOr s.values "expires_on" (env.now + s.options.maxAge) }],
       { s with values := strippedValues s.values, id := toString (nextId db) },
       none) := by
  unfold insert
  simp [henc, hexec, hlast, strippedValues, overrideOr]

theorem save_notNew_success (m : Store) (env : Env) (db : DBState) (s : Session)
    (hnew : s.isNew = false)
    (henc : env.encodeBlobOk = true) (hexec : env.execOk = true) :
    save m env db s =
      (updateRow db s.id (strippedValues s.values)
        (overrideOr s.values "created_on" env.now) (clampedExpiry env s),
       { s with values := strippedValues s.values }, none) := by
  unfold save
  simp [hnew, henc, hexec, strippedValues, overrideOr, clampedExpiry]

/-- Whatever happens inside `insert`, the returned session's value map has
the reserved keys deleted (the deletions happen before any fallible step). -/
theorem insert_session_values (m : Store) (env : Env) (db : DBState) (s : Session) :
    (insert m env db s).2.1.values = strippedValues s.values := by
  unfold insert strippedValues
  dsimp only
  split_ifs <;> rfl

/-- Same for the update path. -/
theorem save_session_values (m : Store) (env : Env) (db : DBState) (s : Session) :
    (save m env db s).2.1.values = strippedValues s.values := by
  unfold save
  split
  · exact insert_session_values m env db s
  · unfold strippedValues
    dsimp only
    split_ifs <;> rfl

/-- For a save that is not redirected to the delete path, the session
returned by `Save` carries the stripped value map. -/
theorem Save_session_values (m : Store) (env : Env) (db : DBState) (s : Session)
    (hma : 0 < s.options.maxAge) :
    (Save m env db s).session.values = strippedValues s.values := by
  unfold Save
  rw [if_neg (by omega)]
  have h : (if s.id = "" then insert m env db s else save m env db s).2.1.values
      = strippedValues s.values := by
    split
    · exact insert_session_values m env db s
    · exact save_session_values m env db s
  rcases hstep : (if s.id = "" then insert m env db s else save m env db s)
    with ⟨db', s', e⟩
  rw [hstep] at h
  simp only [hstep]
  cases e with
  | none =>
    simp only
    split <;> simpa using h
  | some er => simpa using h

/-- Trivial base fact: rows of the original table satisfy the
"old row or reserved-free blob" disjunction. -/
theorem all_mem_self (db : DBState) (f : sessionRow → Bool) :
    (db.all fun r2 => decide (r2 ∈ db) || f r2) = true := by
  rw [List.all_eq_true]
  intro r hr
  simp [hr]

/-- Every row of the table after `insert` is either an untouched old row
or carries a blob with the reserved keys stripped. -/
theorem insert_db_all (m : Store) (env : Env) (db : DBState) (s : Session) :
    ((insert m env db s).1.all fun r2 => decide (r2 ∈ db) || noReservedB r2.data)
      = true := by
  unfold insert
  dsimp only
  split_ifs <;>
    first
      | exact all_mem_self db _
      | · rw [List.all_append, Bool.and_eq_true]
          refine ⟨all_mem_self db _, ?_⟩
          simp [noReservedB_strip]

/-- Same for the update path. -/
theorem save_db_all (m : Store) (env : Env) (db : DBState) (s : Session) :
    ((save m env db s).1.all fun r2 => decide (r2 ∈ db) || noReservedB r2.data)
      = true := by
  unfold save
  split
  · exact insert_db_all m env db s
  · dsimp only
    split_ifs <;>
      first
        | exact all_mem_self db _
        | · rw [List.all_eq_true]
            intro r hr
            simp only [updateRow, List.mem_map] at hr
            obtain ⟨r0, hr0, rfl⟩ := hr
            by_cases h : toString r0.id == s.id
            · simp [h, noReservedB_strip]
            · simp [h, hr0]

/-- Same for the public `Save`, on every path including delete. -/
theorem Save_db_all (m : Store) (env : Env) (db : DBState) (s : Session) :
    ((Save m env db s).db.all fun r2 => decide (r2 ∈ db) || noReservedB r2.data)
      = true := by
  unfold Save
  split
  · unfold Delete
    dsimp only
    split_ifs
    · exact all_mem_self db _
    · rw [List.all_eq_true]
      intro r hr
      simp only [deleteRow, List.mem_filter] at hr
      simp [hr.1]
  · have h : ((if s.id = "" then insert m env db s else save m env db s).1.all
        fun r2 => decide (r2 ∈ db) || noReservedB r2.data) = true := by
      split
      · exact insert_db_all m env db s
      · exact save_db_all m env db s
    rcases hstep : (if s.id = "" then insert m env db s else save m env db s)
      with ⟨db', s', e⟩
    rw [hstep] at h
    simp only [hstep]
    cases e with
    | none =>
      simp only
      split <;> simpa using h
    | some er => simpa using h

/-! ## The claims -/

/-- C1: On the update path of `save` (session not new, identifier
non-empty), when the caller supplied an `expires_on` value earlier than
now + max-age, every row keyed by the session's identifier is persisted
with `expires_on` equal to now + max-age, and in particular never earlier
than now + max-age. -/
theorem save_update_clamps_expiry
    (m : Store) (env : Env) (db : DBState) (s : Session) (e : Int)
    (hid : s.id ≠ "") (hnew : s.isNew = false)
    (henc : env.encodeBlobOk = true) (hexec : env.execOk = true)
    (he : lookupV s.values "expires_on" = some (GoValue.vtime e))
    (hlt : e < env.now + s.options.maxAge) :
    (((save m env db s).1).all fun r =>
      (toString r.id != s.id) ||
        ((r.expiresOn == env.now + s.options.maxAge) &&
          decide (env.now + s.options.maxAge ≤ r.expiresOn))) = true := by
  rw [save_notNew_success m env db s hnew henc hexec]
  have hce : clampedExpiry env s = env.now + s.options.maxAge := by
    unfold clampedExpiry
    rw [he]
    dsimp only [asTime]
    rw [if_pos (by omega)]
  rw [hce, List.all_eq_true]
  intro r hr
  simp only [updateRow, List.mem_map] at hr
  obtain ⟨r0, hr0, rfl⟩ := hr
  by_cases h : toString r0.id == s.id
  · simp [h]
  · have h2 : toString r0.id ≠ s.id := by simpa using h
    simp [h, h2]

def rowC1 : sessionRow :=
  { id := 1, data := [], createdOn := 10, modifiedOn := 10, expiresOn := 120 }

def sessC1 : Session :=
  { id := "1", name := "test",
    values := [("expires_on", GoValue.vtime 50), ("k", GoValue.vother "v")],
    isNew := false, options := { path := "/", maxAge := 60 } }

/-- C1 witness: a caller expiry of 50 against now = 100 and max-age 60 is
clamped up to 160 on the persisted row. -/
theorem save_update_clamps_expiry_witness :
    sessC1.id ≠ "" ∧ sessC1.isNew = false ∧
    lookupV sessC1.values "expires_on" = some (GoValue.vtime 50) ∧
    (50 : Int) < envOk.now + sessC1.options.maxAge ∧
    (((save store0 envOk [rowC1] sessC1).1).all fun r =>
      (toString r.id != sessC1.id) ||
        ((r.expiresOn == envOk.now + sessC1.options.maxAge) &&
          decide (envOk.now + sessC1.options.maxAge ≤ r.expiresOn))) = true :=
  ⟨by decide, rfl, by decide, by decide,
    save_update_clamps_expiry store0 envOk [rowC1] sessC1 50 (by decide) rfl rfl rfl
      (by decide) (by decide)⟩

/-- C2: For a session whose configured max-age is ≤ 0, `Save` takes the
delete path: the table becomes `deleteRow` of the old table (so no insert
or update runs and no row keyed by the identifier remains), exactly one
immediately-expiring cookie (empty value, max-age −1) is emitted, the
in-memory values are cleared, and no error is reported. -/
theorem Save_nonpositive_maxAge_is_delete
    (m : Store) (env : Env) (db : DBState) (s : Session)
    (hma : s.options.maxAge ≤ 0) (hexec : env.execOk = true) :
    (Save m env db s).db = deleteRow db s.id ∧
    findRow (Save m env db s).db s.id = none ∧
    (Save m env db s).cookies =
      [{ name := s.name, value := "", path := s.options.path, maxAge := -1 }] ∧
    (Save m env db s).err = none ∧
    (Save m env db s).session.values = [] := by
  have hS : Save m env db s = Delete m env db s := by
    unfold Save
    rw [if_pos hma]
  rw [hS]
  unfold Delete
  dsimp only
  rw [if_neg (by simp [hexec])]
  exact ⟨rfl, findRow_deleteRow db s.id, rfl, rfl, rfl⟩

def rowC2 : sessionRow :=
  { id := 1, data := [("k", GoValue.vother "v")], createdOn := 10,
    modifiedOn := 10, expiresOn := 500 }

def sessC2 : Session :=
  { id := "1", name := "t", values := [("k", GoValue.vother "v")], isNew := false,
    options := { path := "/", maxAge := 0 } }

/-- C2 witness: max-age 0 on a live row deletes it, emits the expiring
cookie, clears the values, and reports no error. -/
theorem Save_nonpositive_maxAge_is_delete_witness :
    sessC2.options.maxAge ≤ 0 ∧ envOk.execOk = true ∧
    ((Save store0 envOk [rowC2] sessC2).db = deleteRow [rowC2] sessC2.id ∧
     findRow (Save store0 envOk [rowC2] sessC2).db sessC2.id = none ∧
     (Save store0 envOk [rowC2] sessC2).cookies =
       [{ name := sessC2.name, value := "", path := sessC2.options.path,
          maxAge := -1 }] ∧
     (Save store0 envOk [rowC2] sessC2).err = none ∧
     (Save store0 envOk [rowC2] sessC2).session.values = []) :=
  ⟨by decide, rfl,
    Save_nonpositive_maxAge_is_delete store0 envOk [rowC2] sessC2 (by decide) rfl⟩

/-- C3 counterexample: when the named cookie is present but fails to
decode, `New` does NOT return a nil error — the decode error is returned
to the caller (the session is still fresh and is-new, though). -/
theorem New_decode_failure_error_counterexample :
    (New store0 envOk [] (CookieRead.present none) "test").2
        = some GoError.decodeError ∧
    (New store0 envOk [] (CookieRead.present none) "test").2 ≠ none ∧
    (New store0 envOk [] (CookieRead.present none) "test").1.isNew = true := by
  decide

/-- C3 (amended): for a present cookie that fails to decode, `New`
returns a brand-new empty is-new session together with the decode error
(the error is surfaced to the caller, unlike load errors). -/
theorem New_decode_failure_fresh_session
    (m : Store) (env : Env) (db : DBState) (name : String) :
    (New m env db (CookieRead.present none) name).1.isNew = true ∧
    (New m env db (CookieRead.present none) name).1.id = "" ∧
    (New m env db (CookieRead.present none) name).1.values = [] ∧
    (New m env db (CookieRead.present none) name).2 = some GoError.decodeError := by
  exact ⟨rfl, rfl, rfl, rfl⟩

/-- C4: when the cookie decodes to an identifier but the subsequent
`load` fails (no row, scan failure, or the distinguished session-expired
condition), `New` swallows the error: the session stays is-new and the
returned error is nil. -/
theorem New_load_failure_swallowed
    (m : Store) (env : Env) (db : DBState) (id name : String)
    (hload : (load m env db { NewSession m name with id := id }).2 ≠ none) :
    (New m env db (CookieRead.present (some id)) name).1.isNew = true ∧
    (New m env db (CookieRead.present (some id)) name).2 = none := by
  unfold New
  dsimp only
  have hnewflag := load_isNew m env db { NewSession m name with id := id }
  rcases hl : load m env db { NewSession m name with id := id } with ⟨s', e⟩
  rw [hl] at hload hnewflag
  cases e with
  | none => exact absurd rfl hload
  | some er =>
    exact ⟨by simpa [NewSession] using hnewflag, rfl⟩

/-- C4 witness: a cookie pointing at an empty table (load fails with
no-rows) yields an is-new session and a nil error. -/
theorem New_load_failure_swallowed_witness :
    (load store0 envOk [] { NewSession store0 "test" with id := "1" }).2 ≠ none ∧
    ((New store0 envOk [] (CookieRead.present (some "1")) "test").1.isNew = true ∧
     (New store0 envOk [] (CookieRead.present (some "1")) "test").2 = none) :=
  ⟨by decide,
    New_load_failure_swallowed store0 envOk [] "1" "test" (by decide)⟩

def sessC5 : Session :=
  { id := "", name := "test", values := [("expires_on", GoValue.vtime 50)],
    isNew := true, options := { path := "/", maxAge := 60 } }

/-- C5 counterexample: on the insert path a caller-supplied expiry of 50,
although earlier than now + max-age = 160, is persisted as-is (50), so
the persisted `expires_on` is NOT the later of the two on insert. -/
theorem insert_no_clamp_counterexample :
    (Save store0 envOk [] sessC5).err = none ∧
    (Save store0 envOk [] sessC5).db.map (fun r => r.expiresOn) = [50] ∧
    (50 : Int) < envOk.now + sessC5.options.maxAge ∧
    (Save store0 envOk [] sessC5).db.map (fun r => r.expiresOn)
      ≠ [envOk.now + sessC5.options.maxAge] := by
  decide

/-- C5 (amended): only the update path takes the later of the caller
expiry and now + max-age; on insert the persisted `expires_on` is the
caller-supplied value exactly when present (even if earlier than
now + max-age) and now + max-age otherwise. -/
theorem insert_expiry_override_or_floor
    (m : Store) (env : Env) (db : DBState) (s : Session)
    (henc : env.encodeBlobOk = true) (hexec : env.execOk = true)
    (hlast : env.lastInsertOk = true) :
    ((insert m env db s).1.getLast?.map (fun r2 => r2.expiresOn)) =
      some (overrideOr s.values "expires_on" (env.now + s.options.maxAge)) := by
  rw [insert_success m env db s henc hexec hlast]
  simp

/-- C5 witness: concrete instance of the amended insert rule. -/
theorem insert_expiry_override_or_floor_witness :
    envOk.encodeBlobOk = true ∧ envOk.execOk = true ∧ envOk.lastInsertOk = true ∧
    ((insert store0 envOk [] sessC5).1.getLast?.map (fun r2 => r2.expiresOn)) =
      some (overrideOr sessC5.values "expires_on"
        (envOk.now + sessC5.options.maxAge)) :=
  ⟨rfl, rfl, rfl, insert_expiry_override_or_floor store0 envOk [] sessC5 rfl rfl rfl⟩

/-- C6: a loaded row is expired iff now() is strictly later than its
`expires_on` (equality is not expired); when expired, `load` returns the
distinguished session-expired error without touching the session (no blob
decode, no value population), and when not expired no expiry error is
possible. -/
theorem load_expired_iff_now_after
    (m : Store) (env : Env) (db : DBState) (s : Session) (r : sessionRow)
    (hfind : findRow db s.id = some r) (hscan : env.scanOk = true) :
    ((load m env db s).2 = some GoError.sessionExpired ↔ env.now > r.expiresOn) ∧
    (env.now > r.expiresOn → (load m env db s).1 = s) := by
  unfold load
  rw [hfind]
  dsimp only
  rw [if_neg (by simp [hscan])]
  by_cases hexp : r.expiresOn - env.now < 0
  · rw [if_pos hexp]
    exact ⟨⟨fun _ => by omega, fun _ => rfl⟩, fun _ => rfl⟩
  · rw [if_neg hexp]
    constructor
    · constructor
      · intro hc
        by_cases hd : env.decodeBlobOk = false
        · rw [if_pos hd] at hc
          simp at hc
        · rw [if_neg hd] at hc
          simp at hc
      · intro hc
        exact absurd (show r.expiresOn - env.now < 0 by omega) hexp
    · intro hc
      exact absurd (show r.expiresOn - env.now < 0 by omega) hexp

def rowC6 : sessionRow :=
  { id := 1, data := [("k", GoValue.vother "v")], createdOn := 10,
    modifiedOn := 10, expiresOn := 99 }

def sessC6 : Session :=
  { id := "1", name := "test", values := [], isNew := true,
    options := { path := "/", maxAge := 60 } }

/-- C6 witness: a row with `expires_on` 99 at now = 100 is expired and
the session is returned untouched. -/
theorem load_expired_iff_now_after_witness :
    findRow [rowC6] sessC6.id = some rowC6 ∧ envOk.scanOk = true ∧
    (((load store0 envOk [rowC6] sessC6).2 = some GoError.sessionExpired ↔
        envOk.now > rowC6.expiresOn) ∧
     (envOk.now > rowC6.expiresOn → (load store0 envOk [rowC6] sessC6).1 = sessC6)) :=
  ⟨by decide, rfl,
    load_expired_iff_now_after store0 envOk [rowC6] sessC6 rowC6 (by decide) rfl⟩

/-- C7: every row of the table after any `Save` is either an untouched old
row or carries a data blob in which none of the three reserved keys occurs
(they are deleted before encoding), and after a successful `load` the
session's value map carries the three reserved keys re-injected from the
row's timestamp columns. -/
theorem reserved_keys_stripped_and_reinjected
    (m : Store) (env : Env) (db : DBState) (s t : Session) (r : sessionRow)
    (hfind : findRow db t.id = some r)
    (hl : (load m env db t).2 = none) :
    (((Save m env db s).db).all fun r2 => decide (r2 ∈ db) || noReservedB r2.data)
        = true ∧
    lookupV (load m env db t).1.values "created_on"
        = some (GoValue.vtime r.createdOn) ∧
    lookupV (load m env db t).1.values "modified_on"
        = some (GoValue.vtime r.modifiedOn) ∧
    lookupV (load m env db t).1.values "expires_on"
        = some (GoValue.vtime r.expiresOn) := by
  refine ⟨Save_db_all m env db s, ?_⟩
  unfold load at hl ⊢
  rw [hfind] at hl ⊢
  dsimp only at hl ⊢
  by_cases h1 : env.scanOk = false
  · rw [if_pos h1] at hl
    simp at hl
  rw [if_neg h1] at hl ⊢
  by_cases h2 : r.expiresOn - env.now < 0
  · rw [if_pos h2] at hl
    simp at hl
  rw [if_neg h2] at hl ⊢
  by_cases h3 : env.decodeBlobOk = false
  · rw [if_pos h3] at hl
    simp at hl
  rw [if_neg h3]
  dsimp only
  refine ⟨?_, ?_, ?_⟩
  · rw [lookupV_setV_ne _ _ _ _ (by decide), lookupV_setV_ne _ _ _ _ (by decide),
      lookupV_setV_self]
  · rw [lookupV_setV_ne _ _ _ _ (by decide), lookupV_setV_self]
  · rw [lookupV_setV_self]

def rowC7 : sessionRow :=
  { id := 1, data := [("k", GoValue.vother "v")], createdOn := 10,
    modifiedOn := 20, expiresOn := 200 }

def sessC7 : Session :=
  { id := "", name := "test",
    values := [("created_on", GoValue.vtime 1), ("expires_on", GoValue.vtime 2),
               ("modified_on", GoValue.vtime 3), ("k", GoValue.vother "v")],
    isNew := true, options := { path := "/", maxAge := 60 } }

def sessC7load : Session :=
  { id := "1", name := "test", values := [], isNew := true,
    options := { path := "/", maxAge := 60 } }

/-- C7 witness: saving a session whose map contains all three reserved
keys yields a blob without them, and loading a live row re-injects the
row's three timestamps. -/
theorem reserved_keys_stripped_and_reinjected_witness :
    findRow [rowC7] sessC7load.id = some rowC7 ∧
    (load store0 envOk [rowC7] sessC7load).2 = none ∧
    ((((Save store0 envOk [rowC7] sessC7).db).all fun r2 =>
        decide (r2 ∈ [rowC7]) || noReservedB r2.data) = true ∧
     lookupV (load store0 envOk [rowC7] sessC7load).1.values "created_on"
        = some (GoValue.vtime rowC7.createdOn) ∧
     lookupV (load store0 envOk [rowC7] sessC7load).1.values "modified_on"
        = some (GoValue.vtime rowC7.modifiedOn) ∧
     lookupV (load store0 envOk [rowC7] sessC7load).1.values "expires_on"
        = some (GoValue.vtime rowC7.expiresOn)) :=
  ⟨by decide, by decide,
    reserved_keys_stripped_and_reinjected store0 envOk [rowC7] sessC7 sessC7load
      rowC7 (by decide) (by decide)⟩

def sessC8 : Session :=
  { id := "", name := "t", values := [], isNew := true,
    options := { path := "/", maxAge := 0 } }

/-- C8 counterexample: a session with an empty identifier whose max-age is
0 is NOT inserted by `Save` — the call succeeds, the table stays empty and
the identifier stays empty (the delete path runs instead). -/
theorem Save_empty_id_counterexample :
    sessC8.id = "" ∧
    (Save store0 envOk [] sessC8).err = none ∧
    (Save store0 envOk [] sessC8).db = [] ∧
    (Save store0 envOk [] sessC8).session.id = "" := by
  decide

/-- C8 (amended): for every session with an empty identifier AND positive
configured max-age, `Save` performs an insert (one new row is appended and
no existing row is touched, so never an update); on success the session's
identifier becomes the non-empty decimal string of the store-assigned row
id and a Set-Cookie carrying that encoded identifier is written. -/
theorem Save_empty_id_inserts
    (m : Store) (env : Env) (db : DBState) (s : Session)
    (hid : s.id = "") (hma : 0 < s.options.maxAge)
    (henc : env.encodeBlobOk = true) (hexec : env.execOk = true)
    (hlast : env.lastInsertOk = true) (hencid : env.encodeIDOk = true) :
    (Save m env db s).err = none ∧
    (Save m env db s).db.length = db.length + 1 ∧
    (Save m env db s).db.take db.length = db ∧
    (Save m env db s).session.id = toString (nextId db) ∧
    (Save m env db s).session.id ≠ "" ∧
    (Save m env db s).cookies =
      [{ name := s.name, value := toString (nextId db),
         path := s.options.path, maxAge := s.options.maxAge }] := by
  unfold Save
  rw [if_neg (by omega)]
  dsimp only
  rw [if_pos hid, insert_success m env db s henc hexec hlast]
  dsimp only
  rw [if_neg (by simp [hencid])]
  refine ⟨rfl, ?_, ?_, rfl, toString_nat_ne_empty _, rfl⟩
  · simp
  · exact List.take_left db _

def sessC8ok : Session :=
  { id := "", name := "test", values := [("k", GoValue.vother "v")],
    isNew := true, options := { path := "/", maxAge := 60 } }

/-- C8 witness: first save of a fresh session against an empty table
assigns identifier "1" and emits the cookie. -/
theorem Save_empty_id_inserts_witness :
    sessC8ok.id = "" ∧ (0 : Int) < sessC8ok.options.maxAge ∧
    ((Save store0 envOk [] sessC8ok).err = none ∧
     (Save store0 envOk [] sessC8ok).db.length = ([] : DBState).length + 1 ∧
     (Save store0 envOk [] sessC8ok).db.take ([] : DBState).length = [] ∧
     (Save store0 envOk [] sessC8ok).session.id = toString (nextId []) ∧
     (Save store0 envOk [] sessC8ok).session.id ≠ "" ∧
     (Save store0 envOk [] sessC8ok).cookies =
       [{ name := sessC8ok.name, value := toString (nextId []),
          path := sessC8ok.options.path, maxAge := sessC8ok.options.maxAge }]) :=
  ⟨rfl, by decide,
    Save_empty_id_inserts store0 envOk [] sessC8ok rfl (by decide) rfl rfl rfl rfl⟩

/-- C9: at insert time `modified_on` is set to exactly equal `created_on`,
and the update path never touches the `modified_on` column: the list of
`modified_on` values of the table is unchanged by `save` on a not-new
session. -/
theorem modified_on_set_at_insert_never_updated
    (m : Store) (env : Env) (db : DBState) (s : Session)
    (hnew : s.isNew = false)
    (henc : env.encodeBlobOk = true) (hexec : env.execOk = true)
    (hlast : env.lastInsertOk = true) :
    ((insert m env db s).1.getLast?.map (fun r2 => r2.modifiedOn == r2.createdOn))
        = some true ∧
    (save m env db s).1.map (fun r2 => r2.modifiedOn)
        = db.map (fun r2 => r2.modifiedOn) := by
  constructor
  · rw [insert_success m env db s henc hexec hlast]
    simp
  · rw [save_notNew_success m env db s hnew henc hexec]
    exact updateRow_map_modifiedOn db s.id _ _ _

def rowC9 : sessionRow :=
  { id := 1, data := [], createdOn := 10, modifiedOn := 33, expiresOn := 500 }

def sessC9 : Session :=
  { id := "1", name := "t", values := [("k", GoValue.vother "v")],
    isNew := false, options := { path := "/", maxAge := 60 } }

/-- C9 witness: inserting appends a row with `modified_on` equal to
`created_on`, and updating row 1 leaves its `modified_on` at 33. -/
theorem modified_on_set_at_insert_never_updated_witness :
    sessC9.isNew = false ∧
    (((insert store0 envOk [rowC9] sessC9).1.getLast?.map
        (fun r2 => r2.modifiedOn == r2.createdOn)) = some true ∧
     (save store0 envOk [rowC9] sessC9).1.map (fun r2 => r2.modifiedOn)
        = [rowC9].map (fun r2 => r2.modifiedOn)) :=
  ⟨rfl,
    modified_on_set_at_insert_never_updated store0 envOk [rowC9] sessC9 rfl rfl rfl rfl⟩

/-- C10: `insert` and the update path delete the three reserved keys from
the in-memory value map before encoding, and the deletion is not rolled
back: whenever `Save` (with positive max-age) fails with a blob-encoding
or statement-execution error, the caller's session value map no longer
contains any of the reserved keys. -/
theorem failed_save_leaves_reserved_keys_deleted
    (m : Store) (env : Env) (db : DBState) (s : Session)
    (hma : 0 < s.options.maxAge)
    (herr : (Save m env db s).err = some GoError.encodeBlobError ∨
            (Save m env db s).err = some GoError.execError ∨
            (Save m env db s).err = some GoError.lastInsertError) :
    noReservedKeys (Save m env db s).session.values := by
  rw [Save_session_values m env db s hma]
  exact noReservedKeys_strip s.values

def envEncFail : Env :=
  { now := 100, encodeBlobOk := false, encodeIDOk := true, decodeBlobOk := true,
    scanOk := true, execOk := true, lastInsertOk := true }

def sessC10 : Session :=
  { id := "1", name := "t",
    values := [("created_on", GoValue.vtime 5), ("expires_on", GoValue.vtime 7),
               ("k", GoValue.vother "v")],
    isNew := false, options := { path := "/", maxAge := 60 } }

/-- C10 witness: a failing blob encode still leaves the caller's session
with the reserved keys deleted. -/
theorem failed_save_leaves_reserved_keys_deleted_witness :
    (0 : Int) < sessC10.options.maxAge ∧
    (Save store0 envEncFail [] sessC10).err = some GoError.encodeBlobError ∧
    noReservedKeys (Save store0 envEncFail [] sessC10).session.values :=
  ⟨by decide, by decide,
    failed_save_leaves_reserved_keys_deleted store0 envEncFail [] sessC10
      (by decide) (Or.inl (by decide))⟩

end Sqlitestore
